import Mathlib

set_option maxRecDepth 100000

/-!
Shallow embedding of `src/dataset.py` (class `ImageNetDataset`).

The Python code builds, at construction time, three structures from a
directory listing and a label feed:
  * `classid_to_label` : dict from class-id token to label name,
  * `_folder_stats`    : dict from folder name to `{id, len, images}`,
  * `_folder_names`    : directory entries sorted by the integer after the
    first character of each folder name,
and then resolves a flat `global_idx` to `(folder_name, image_name)` with
`_calculate_image_folder_and_name`, plus `class_id` in `__getitem__`.

Modelling conventions:
  * filesystem: the listing of `root_dir/phase` is a `List (String × List String)`
    pairing each folder name with its file listing; `listdir` on a folder
    that is absent raises, modelled by `Option`;
  * Python `dict` is an association list whose keys stay distinct; key
    re-insertion overwrites (`dinsert`), `len(dict)` is the list length;
  * Python `sorted` is stable, hence equal (as a function) to insertion
    sort with the non-strict key comparison, which is what `pysorted` uses;
  * Python integer division `//` and remainder `%` agree with `Int.ediv`
    and `Int.emod` for the positive divisors (50, 1300) used here;
  * Python list subscription accepts negative indices that wrap from the
    end (`pyGet`); any raised `IndexError`/`KeyError`/`ValueError` is `none`;
  * the `while` loop of the train branch is a fuel recursion (`trainScan`);
    the fuel passed by `calcImageFolderAndName` strictly exceeds the number
    of iterations the Python loop can make before either stopping or
    raising, so fuel exhaustion is unreachable there.
-/

namespace ImageNet

/-- Entry of `_folder_stats`: numeric class id, folder size, sorted images. -/
structure FolderEntry where
  id : Int
  len : Nat
  images : List String
deriving DecidableEq, Repr

/-- Lookup in a Python-dict association list. -/
def dlookup (m : List (String × β)) (k : String) : Option β :=
  (m.find? (fun p => p.1 == k)).map (·.2)

/-- Python-dict insertion: overwrites any previous binding of the key,
keeping keys distinct so that `List.length` is the dict size. -/
def dinsert (m : List (String × β)) (k : String) (v : β) : List (String × β) :=
  (k, v) :: m.filter (fun p => p.1 != k)

/-- Decimal value of a digit character, `none` for any other character. -/
def charDigit (c : Char) : Option Nat :=
  if '0' ≤ c ∧ c ≤ '9' then some (c.toNat - '0'.toNat) else none

/-- Left-to-right accumulation of decimal digits. -/
def digitsVal : List Char → Nat → Option Nat
  | [], acc => some acc
  | c :: cs, acc =>
    match charDigit c with
    | none => none
    | some d => digitsVal cs (acc * 10 + d)

/-- Parse of a nonempty all-digit character list. -/
def parseNatChars : List Char → Option Nat
  | [] => none
  | c :: cs => digitsVal (c :: cs) 0

/-- Parse of a Python `int(...)` call on a token: an optional minus sign
followed by digits. Evaluates to `none` where Python raises `ValueError`. -/
def pyIntChars : List Char → Option Int
  | '-' :: cs => (parseNatChars cs).map (fun n => -(n : Int))
  | cs => (parseNatChars cs).map (fun n => (n : Int))

/-- `int(...)` on a string token. -/
def pyInt (s : String) : Option Int :=
  pyIntChars s.data

/-- Python `split(sep)` for a one-character separator: splits at every
occurrence, keeping empty segments, and maps the empty input to one empty
segment. -/
def splitOnChar (sep : Char) : List Char → List (List Char)
  | [] => [[]]
  | c :: cs =>
    let r := splitOnChar sep cs
    if c = sep then [] :: r
    else
      match r with
      | [] => [[c]]
      | h :: t => (c :: h) :: t

/-- Numeric value a sort key extractor assigns to a string (default `0` is
never observed: sorting is only performed when every key parses). -/
def keyD (key : String → Option Int) (s : String) : Int :=
  ((key s).getD 0)

/-- Comparison relation induced by a key extractor. -/
def keyRel (key : String → Option Int) : String → String → Prop :=
  fun a b => keyD key a ≤ keyD key b

instance (key : String → Option Int) : DecidableRel (keyRel key) :=
  fun a b => Int.decLe _ _

instance (key : String → Option Int) : IsTotal String (keyRel key) :=
  ⟨fun a b => Int.le_total (keyD key a) (keyD key b)⟩

instance (key : String → Option Int) : IsTrans String (keyRel key) :=
  ⟨fun _ _ _ hab hbc => le_trans hab hbc⟩

/-- Python `sorted(xs, key=...)`: fails if some key raises, otherwise the
stable sort by the key, which insertion sort computes. -/
def pysorted (key : String → Option Int) (xs : List String) : Option (List String) :=
  if xs.all (fun x => (key x).isSome) then
    some (List.insertionSort (keyRel key) xs)
  else none

/-- Sort key of a folder name: `int(folder_name[1:])`. -/
def folderKey (name : String) : Option Int :=
  pyIntChars (name.data.drop 1)

/-- Sort key of an image name:
`int(image_name.replace('.', '_').split('_')[1])` — every dot is first
turned into an underscore, the name is split at underscores, and the
second segment is parsed as an integer. -/
def imageKey (name : String) : Option Int :=
  ((splitOnChar '_' (name.data.map (fun c => if c = '.' then '_' else c))).get? 1).bind
    pyIntChars

/-- One iteration of the annotation loop body (lines 78-85 of
`dataset.py`): given the current `(classid_to_label, folder_stats)` pair
and a parsed line `(folder_name, id_, label_name)`, list the folder, sort
its images, and overwrite both dict entries. Any raise is `none`. -/
def annotStep (dirs : List (String × List String))
    (st : List (String × String) × List (String × FolderEntry))
    (line : String × String × String) :
    Option (List (String × String) × List (String × FolderEntry)) := do
  let idv ← pyInt line.2.1
  let listing ← dlookup dirs line.1
  let imgs ← pysorted imageKey listing
  some (dinsert st.1 line.2.1 line.2.2,
        dinsert st.2 line.1 ⟨idv, listing.length, imgs⟩)

/-- The annotation loop over all lines of `labels.txt`. -/
def loadLoop (dirs : List (String × List String))
    (st : List (String × String) × List (String × FolderEntry)) :
    List (String × String × String) →
    Option (List (String × String) × List (String × FolderEntry))
  | [] => some st
  | line :: rest =>
    match annotStep dirs st line with
    | none => none
    | some st' => loadLoop dirs st' rest

/-- Result of `_load_annotations`. -/
structure LoadResult where
  labels : List (String × String)
  stats : List (String × FolderEntry)
  names : List String
deriving DecidableEq, Repr

/-- Embedding of `_load_annotations`: sort the listing of
`root_dir/phase` by `folderKey`, then run the annotation loop. -/
def loadAll (dirs : List (String × List String))
    (annots : List (String × String × String)) : Option LoadResult := do
  let names ← pysorted folderKey (dirs.map (·.1))
  let st ← loadLoop dirs ([], []) annots
  some ⟨st.1, st.2, names⟩

/-- Dataset phase. -/
inductive Phase where
  | train : Phase
  | val : Phase
deriving DecidableEq, Repr

/-- The list comprehension `[folder_stats[f]["len"] for f in folder_names]`:
evaluated left to right, raising (`none`) on the first missing key. -/
def lenList (stats : List (String × FolderEntry)) : List String → Option (List Nat)
  | [] => some []
  | f :: fs => do
    let e ← dlookup stats f
    let rest ← lenList stats fs
    some (e.len :: rest)

/-- Embedding of `_get_len`: `50 * len(folder_stats)` for val, and
`reduce(add, [folder_stats[f]["len"] for f in folder_names])` for train —
the comprehension raises on a missing key and `reduce` raises on an
empty list, both modelled by `none`. -/
def getLen (phase : Phase) (stats : List (String × FolderEntry))
    (names : List String) : Option Nat :=
  match phase with
  | .val => some (50 * stats.length)
  | .train =>
    match lenList stats names with
    | none => none
    | some [] => none
    | some (l :: ls) => some ((l :: ls).sum)

/-- Embedding of `__init__`: `_load_annotations` then `_get_len`; any
raise during either aborts construction (`none`), matching the Python
constructor propagating the exception. -/
def mkDataset (phase : Phase) (dirs : List (String × List String))
    (annots : List (String × String × String)) : Option (LoadResult × Nat) := do
  let r ← loadAll dirs annots
  let n ← getLen phase r.stats r.names
  some (r, n)

/-- Python list subscription `xs[i]` for `i : Int`: negative indices wrap
from the end; `none` where Python raises `IndexError`. -/
def pyGet (xs : List α) (i : Int) : Option α :=
  if i < 0 then
    if -i ≤ (xs.length : Int) then xs.get? (xs.length - (-i).toNat) else none
  else xs.get? i.toNat

/-- The `while` loop of the train branch (lines 175-177): while
`sum_ + folder_stats[folder_names[folder_i]]["len"] <= global_idx`,
advance. Returns the folder name together with the final `folder_i` and
`sum_`. The condition itself subscripts `folder_names` and the stats dict,
so a raise there ends the call with `none`. -/
def trainScan (stats : List (String × FolderEntry)) (names : List String)
    (gi : Int) : Nat → Int → Int → Option (String × Int × Int)
  | 0, _, _ => none
  | fuel + 1, folderI, sum_ => do
    let folder ← pyGet names folderI
    let e ← dlookup stats folder
    if sum_ + (e.len : Int) ≤ gi then
      trainScan stats names gi fuel (folderI + 1) (sum_ + (e.len : Int))
    else
      some (folder, folderI, sum_)

/-- Fuel passed to `trainScan`; strictly larger than the number of
iterations the Python loop can perform from first approximation
`gi.ediv 1300` before stopping or raising. -/
def scanFuel (names : List String) (gi : Int) : Nat :=
  names.length + 2 + (-(gi.ediv 1300)).toNat

/-- Embedding of `_calculate_image_folder_and_name`. Returns
`(folder_name, image_name)`; `none` where the Python code raises. -/
def calcImageFolderAndName (phase : Phase) (stats : List (String × FolderEntry))
    (names : List String) (gi : Int) : Option (String × String) :=
  match phase with
  | .val =>
    match pyGet names (gi.ediv 50) with
    | none => none
    | some folder =>
      match dlookup stats folder with
      | none => none
      | some e =>
        match pyGet e.images (gi.emod 50) with
        | none => none
        | some img => some (folder, img)
  | .train =>
    match trainScan stats names gi (scanFuel names gi) (gi.ediv 1300)
        (1300 * gi.ediv 1300) with
    | none => none
    | some res =>
      match dlookup stats res.1 with
      | none => none
      | some e =>
        match pyGet e.images (gi - res.2.2) with
        | none => none
        | some img => some (res.1, img)

/-- Resolution as observed through `__getitem__`: the folder and image
from `_calculate_image_folder_and_name` plus
`class_id = folder_stats[folder_name]["id"]`. -/
def resolve (phase : Phase) (stats : List (String × FolderEntry))
    (names : List String) (gi : Int) : Option (String × String × Int) :=
  match calcImageFolderAndName phase stats names gi with
  | none => none
  | some fi =>
    match dlookup stats fi.1 with
    | none => none
    | some e => some (fi.1, fi.2, e.id)

/-- Size a folder contributes to cumulative counts (`0` only for folders
absent from the stats dict, which the theorems exclude by hypothesis). -/
def lenOf (stats : List (String × FolderEntry)) (f : String) : Nat :=
  (((dlookup stats f).map (·.len)).getD 0)

/-- Sum of folder sizes over the first `p` folders of `names`. -/
def cumLenBefore (stats : List (String × FolderEntry)) (names : List String)
    (p : Nat) : Nat :=
  ((names.take p).map (lenOf stats)).sum

/-- Total train length: sum of folder sizes in `names` order. -/
def totalLen (stats : List (String × FolderEntry)) (names : List String) : Nat :=
  (names.map (lenOf stats)).sum

/-- Decomposition check of the spec: some position `p` in `names` holds
the returned folder, and some local index `l` below that folder's size
satisfies `gi = cumLenBefore p + l` with `images[l]` the returned image. -/
def decompChk (stats : List (String × FolderEntry)) (names : List String)
    (gi : Nat) (folder img : String) : Bool :=
  (List.range names.length).any fun p =>
    (names.get? p == some folder) &&
    ((List.range (lenOf stats folder)).any fun l =>
      ((((dlookup stats folder).map (·.images)).getD []).get? l == some img) &&
      (gi == cumLenBefore stats names p + l))

/-! Concrete datasets used as test vectors. `exStats`/`exNames` is what
construction produces from a train directory holding folders `n0` (one
image), `n1` (one image) and `n2` (1300 images with ascending numeric
components, hence already in sorted order). -/

/-- Image listing of a full train folder: 1300 names `c_0.x` … `c_1299.x`. -/
def bigImgs : List String :=
  (List.range 1300).map (fun i => "c_" ++ toString i ++ ".x")

/-- Stats of a train split with folder sizes 1, 1, 1300. -/
def exStats : List (String × FolderEntry) :=
  [("n0", ⟨0, 1, ["a_0.x"]⟩), ("n1", ⟨1, 1, ["b_0.x"]⟩), ("n2", ⟨2, 1300, bigImgs⟩)]

/-- Folder order of the train split with sizes 1, 1, 1300. -/
def exNames : List String := ["n0", "n1", "n2"]

/-- Image listing of a regular val folder: `t_0.x` … `t_49.x`. -/
def imgs50 (tag : String) : List String :=
  (List.range 50).map (fun i => tag ++ "_" ++ toString i ++ ".x")

/-- Stats of a val split with two folders of 50 images each. -/
def valStats : List (String × FolderEntry) :=
  [("n0", ⟨0, 50, imgs50 "d"⟩), ("n1", ⟨1, 50, imgs50 "e"⟩)]

/-- Folder order of the two-folder val split. -/
def valNames : List String := ["n0", "n1"]

/-- Directory listing with two folders, `n1` and `n2`. -/
def exDirs4 : List (String × List String) := [("n1", ["a_1.x"]), ("n2", ["b_1.x"])]

/-- Label feed mentioning only folder `n1` of `exDirs4`. -/
def exAnn4 : List (String × String × String) := [("n1", "0", "fish")]

/-- Directory listing whose single image name has no numeric component. -/
def badDirs : List (String × List String) := [("n1", ["bad"])]

/-- Label feed for `badDirs`. -/
def badAnn : List (String × String × String) := [("n1", "0", "fish")]

/-- One-folder train stats used to instantiate universally quantified
theorems. -/
def smallStats : List (String × FolderEntry) :=
  [("n0", ⟨0, 2, ["a_1.x", "a_2.x"]⟩)]

/-- Folder order of the one-folder train split. -/
def smallNames : List String := ["n0"]

end ImageNet

namespace ImageNet

/-! Helper lemmas. -/

/-- Subscription by a nonnegative Python index is plain list indexing. -/
theorem pyGet_natCast (xs : List α) (n : Nat) : pyGet xs (n : Int) = xs.get? n := by
  simp [pyGet]

/-- `dinsert` binds the inserted key to the inserted value. -/
theorem dlookup_dinsert_self (m : List (String × β)) (k : String) (v : β) :
    dlookup (dinsert m k v) k = some v := by
  simp [dlookup, dinsert, List.find?]

/-- `find?` by one key ignores a filter that removes another key. -/
theorem find?_filter_ne (m : List (String × β)) (k k' : String) (h : k' ≠ k) :
    (m.filter (fun p => p.1 != k)).find? (fun p => p.1 == k') =
      m.find? (fun p => p.1 == k') := by
  induction m with
  | nil => rfl
  | cons a m ih =>
    by_cases hk : a.1 = k
    · have h1 : (a.1 != k) = false := by simp [hk]
      have h2 : (a.1 == k') = false := by
        rw [hk]; exact beq_eq_false_iff_ne.mpr fun e => h e.symm
      simp [List.filter_cons, h1, List.find?_cons, h2, ih]
    · have h1 : (a.1 != k) = true := by simp [hk]
      by_cases hk' : a.1 = k'
      · have h2 : (a.1 == k') = true := by simp [hk']
        simp [List.filter_cons, h1, List.find?_cons, h2]
      · have h2 : (a.1 == k') = false := by simp [hk']
        simp [List.filter_cons, h1, List.find?_cons, h2, ih]

/-- `dinsert` leaves bindings of other keys unchanged. -/
theorem dlookup_dinsert_ne (m : List (String × β)) (k k' : String) (v : β)
    (h : k' ≠ k) : dlookup (dinsert m k v) k' = dlookup m k' := by
  have h2 : (k == k') = false := beq_eq_false_iff_ne.mpr fun e => h e.symm
  simp [dlookup, dinsert, List.find?_cons, h2, find?_filter_ne m k k' h]

end ImageNet

namespace ImageNet

/-- An annotation line whose folder is not in the directory listing makes
the loop body raise, whatever the accumulated state. -/
theorem annotStep_none_of_nodir (dirs : List (String × List String))
    (st : List (String × String) × List (String × FolderEntry))
    (line : String × String × String) (h : dlookup dirs line.1 = none) :
    annotStep dirs st line = none := by
  cases hp : pyInt line.2.1 <;> simp [annotStep, hp, h]

/-- A listing holding an image whose name yields no numeric component
makes `sorted` raise. -/
theorem pysorted_none_of_badkey (key : String → Option Int) (xs : List String)
    (x : String) (hx : x ∈ xs) (h : key x = none) : pysorted key xs = none := by
  have : ¬ xs.all (fun y => (key y).isSome) = true := by
    simp only [List.all_eq_true]
    intro hall
    have := hall x hx
    simp [h] at this
  simp [pysorted, this]

/-- An annotation line naming a folder with an unparsable image name makes
the loop body raise, whatever the accumulated state. -/
theorem annotStep_none_of_badimage (dirs : List (String × List String))
    (st : List (String × String) × List (String × FolderEntry))
    (line : String × String × String) (listing : List String) (img : String)
    (hdir : dlookup dirs line.1 = some listing) (himg : img ∈ listing)
    (hkey : imageKey img = none) : annotStep dirs st line = none := by
  cases hp : pyInt line.2.1 <;>
    simp [annotStep, hp, hdir, pysorted_none_of_badkey imageKey listing img himg hkey]

/-- If some line of the feed makes the loop body raise independently of
state, the whole loop raises. -/
theorem loadLoop_none_of_mem (dirs : List (String × List String))
    (line : String × String × String)
    (hline : ∀ st, annotStep dirs st line = none) :
    ∀ (annots : List (String × String × String)) st, line ∈ annots →
      loadLoop dirs st annots = none := by
  intro annots
  induction annots with
  | nil => intro st hmem; cases hmem
  | cons x xs ih =>
    intro st hmem
    rcases List.mem_cons.mp hmem with rfl | hmem'
    · simp [loadLoop, hline st]
    · cases hs : annotStep dirs st x with
      | none => simp [loadLoop, hs]
      | some st' => simp [loadLoop, hs, ih st' hmem']

/-- Inversion of a successful loop body: the line parsed, the folder was
listed, its images sorted, and both dicts were overwritten. -/
theorem annotStep_eq_some (dirs : List (String × List String))
    (st st' : List (String × String) × List (String × FolderEntry))
    (line : String × String × String) (h : annotStep dirs st line = some st') :
    ∃ idv listing imgs, pyInt line.2.1 = some idv ∧
      dlookup dirs line.1 = some listing ∧
      pysorted imageKey listing = some imgs ∧
      st' = (dinsert st.1 line.2.1 line.2.2,
             dinsert st.2 line.1 ⟨idv, listing.length, imgs⟩) := by
  cases hp : pyInt line.2.1 with
  | none => simp [annotStep, hp] at h
  | some idv =>
    cases hd : dlookup dirs line.1 with
    | none => simp [annotStep, hp, hd] at h
    | some listing =>
      cases hi : pysorted imageKey listing with
      | none => simp [annotStep, hp, hd, hi] at h
      | some imgs =>
        simp [annotStep, hp, hd, hi] at h
        exact ⟨idv, listing, imgs, rfl, rfl, hi, h.symm⟩

/-- Every folder bound in the stats dict after the loop either comes from
some line of the feed — with its images the sort of the folder's listing —
or was already bound before the loop. -/
theorem loadLoop_stats_lookup (dirs : List (String × List String)) :
    ∀ (annots : List (String × String × String)) st out,
      loadLoop dirs st annots = some out →
      ∀ (f : String) (e : FolderEntry), dlookup out.2 f = some e →
      (∃ idTok lbl listing, (f, idTok, lbl) ∈ annots ∧ pyInt idTok = some e.id ∧
        dlookup dirs f = some listing ∧ e.len = listing.length ∧
        pysorted imageKey listing = some e.images) ∨
      dlookup st.2 f = some e := by
  intro annots
  induction annots with
  | nil =>
    intro st out h f e he
    simp [loadLoop] at h
    subst h
    exact Or.inr he
  | cons x xs ih =>
    intro st out h f e he
    rw [loadLoop] at h
    cases hs : annotStep dirs st x with
    | none => rw [hs] at h; cases h
    | some st' =>
      rw [hs] at h
      rcases ih st' out h f e he with hL | hR
      · rcases hL with ⟨idTok, lbl, listing, hmem, h1, h2, h3, h4⟩
        exact Or.inl ⟨idTok, lbl, listing, List.mem_cons_of_mem x hmem, h1, h2, h3, h4⟩
      · rcases annotStep_eq_some dirs st st' x hs with ⟨idv, listing, imgs, hidv, hlist, himgs, hst'⟩
        by_cases hf : x.1 = f
        · rw [hst'] at hR
          rw [hf] at hR
          rw [dlookup_dinsert_self] at hR
          cases hR
          refine Or.inl ⟨x.2.1, x.2.2, listing, ?_, hidv, by rw [← hf]; exact hlist, rfl, himgs⟩
          have : x = (f, x.2.1, x.2.2) := by
            rw [← hf]
          rw [← this]
          exact List.mem_cons_self x xs
        · rw [hst'] at hR
          rw [dlookup_dinsert_ne _ _ _ _ (fun e' => hf e'.symm)] at hR
          exact Or.inr hR

/-- A folder never named by the feed stays unbound in the stats dict. -/
theorem loadLoop_stats_none (dirs : List (String × List String)) :
    ∀ (annots : List (String × String × String)) st out,
      loadLoop dirs st annots = some out →
      ∀ (f : String), (∀ a ∈ annots, a.1 ≠ f) → dlookup st.2 f = none →
        dlookup out.2 f = none := by
  intro annots
  induction annots with
  | nil =>
    intro st out h f _ hst
    simp [loadLoop] at h
    subst h
    exact hst
  | cons x xs ih =>
    intro st out h f hne hst
    rw [loadLoop] at h
    cases hs : annotStep dirs st x with
    | none => rw [hs] at h; cases h
    | some st' =>
      rw [hs] at h
      refine ih st' out h f (fun a ha => hne a (List.mem_cons_of_mem x ha)) ?_
      rcases annotStep_eq_some dirs st st' x hs with ⟨idv, listing, imgs, _, _, _, hst'⟩
      rw [hst']
      rw [dlookup_dinsert_ne _ _ _ _ (fun e' => (hne x (List.mem_cons_self x xs)) e'.symm)]
      exact hst

end ImageNet

namespace ImageNet

/-- Inversion of a successful `pysorted`: every key parses and the result
is the insertion sort. -/
theorem pysorted_eq_some (key : String → Option Int) (xs ys : List String)
    (h : pysorted key xs = some ys) :
    (∀ x ∈ xs, (key x).isSome) ∧ ys = List.insertionSort (keyRel key) xs := by
  by_cases hall : xs.all (fun x => (key x).isSome) = true
  · refine ⟨fun x hx => ?_, ?_⟩
    · have := List.all_eq_true.mp hall x hx
      simpa using this
    · rw [pysorted, if_pos hall] at h
      exact (Option.some.injEq _ _ ▸ h).symm
  · rw [pysorted, if_neg hall] at h
    cases h

/-- Inversion of a successful `_load_annotations`. -/
theorem loadAll_eq_some (dirs : List (String × List String))
    (annots : List (String × String × String)) (r : LoadResult)
    (h : loadAll dirs annots = some r) :
    pysorted folderKey (dirs.map (·.1)) = some r.names ∧
      loadLoop dirs ([], []) annots = some (r.labels, r.stats) := by
  cases hn : pysorted folderKey (dirs.map (·.1)) with
  | none => simp [loadAll, hn] at h
  | some names =>
    cases hl : loadLoop dirs ([], []) annots with
    | none => simp [loadAll, hn, hl] at h
    | some st =>
      simp [loadAll, hn, hl] at h
      subst h
      exact ⟨rfl, congrArg some Prod.mk.eta.symm⟩

/-- A failing step of the length comprehension fails the whole
comprehension. -/
theorem lenList_none (stats : List (String × FolderEntry)) :
    ∀ (names : List String) (f : String), f ∈ names → dlookup stats f = none →
      lenList stats names = none := by
  intro names
  induction names with
  | nil => intro f h; cases h
  | cons n ns ih =>
    intro f hmem hf
    rcases List.mem_cons.mp hmem with rfl | hmem'
    · simp [lenList, hf]
    · cases hn : dlookup stats n with
      | none => simp [lenList, hn]
      | some e => simp [lenList, hn, ih f hmem' hf]

/-- When every folder is bound, the length comprehension succeeds and
computes the folder sizes in order. -/
theorem lenList_eq (stats : List (String × FolderEntry)) :
    ∀ (names : List String), (∀ f ∈ names, (dlookup stats f).isSome) →
      lenList stats names = some (names.map (lenOf stats)) := by
  intro names
  induction names with
  | nil => intro; rfl
  | cons n ns ih =>
    intro hann
    rcases Option.isSome_iff_exists.mp (hann n (List.mem_cons_self n ns)) with ⟨e, he⟩
    have hrec := ih (fun f hf => hann f (List.mem_cons_of_mem n hf))
    have hlen : lenOf stats n = e.len := by simp [lenOf, he]
    simp [lenList, he, hrec, hlen]

/-- Cumulative length of zero folders. -/
theorem cumLenBefore_zero (stats : List (String × FolderEntry))
    (names : List String) : cumLenBefore stats names 0 = 0 := rfl

/-- Cumulative length extended by one folder. -/
theorem cumLenBefore_succ (stats : List (String × FolderEntry))
    (names : List String) (p : Nat) (h : p < names.length) :
    cumLenBefore stats names (p + 1) =
      cumLenBefore stats names p + lenOf stats (names.get ⟨p, h⟩) := by
  have hget : names[p]? = some (names.get ⟨p, h⟩) := by
    rw [List.getElem?_eq_getElem h]
    rfl
  rw [cumLenBefore, cumLenBefore, List.take_succ, hget]
  rw [List.map_append, List.sum_append]
  simp

/-- Past the end of `names` the cumulative length is the total length. -/
theorem cumLenBefore_of_le (stats : List (String × FolderEntry))
    (names : List String) (p : Nat) (h : names.length ≤ p) :
    cumLenBefore stats names p = totalLen stats names := by
  rw [cumLenBefore, totalLen, List.take_of_length_le h]

/-- With folder sizes bounded by 1300, `p` folders hold at most `1300 * p`
items. -/
theorem cumLenBefore_le (stats : List (String × FolderEntry))
    (names : List String) (p : Nat)
    (hsz : ∀ f ∈ names, lenOf stats f ≤ 1300) :
    cumLenBefore stats names p ≤ 1300 * p := by
  have hb : ∀ x ∈ (names.take p).map (lenOf stats), x ≤ 1300 := by
    intro x hx
    rcases List.mem_map.mp hx with ⟨f, hf, rfl⟩
    exact hsz f (List.mem_of_mem_take hf)
  calc ((names.take p).map (lenOf stats)).sum
      ≤ ((names.take p).map (lenOf stats)).length • 1300 :=
        List.sum_le_card_nsmul _ _ hb
    _ = ((names.take p).length) * 1300 := by rw [List.length_map]; rfl
    _ ≤ p * 1300 := Nat.mul_le_mul_right 1300 (by
        rw [List.length_take]; exact min_le_left _ _)
    _ = 1300 * p := Nat.mul_comm _ _

end ImageNet

namespace ImageNet

/-- Soundness of the refinement loop for nonnegative starting data: with
every folder annotated and a valid index, the loop stops (without
exhausting its fuel and without any out-of-range subscript) at a position
no smaller than the starting one, with the loop invariants preserved. -/
theorem trainScan_sound (stats : List (String × FolderEntry)) (names : List String)
    (gi : Nat) (hann : ∀ f ∈ names, (dlookup stats f).isSome)
    (hgi : gi < totalLen stats names) :
    ∀ (fuel folderI sum_ : Nat), sum_ ≤ gi →
      cumLenBefore stats names folderI ≤ sum_ →
      names.length + 1 ≤ fuel + folderI →
      ∃ (folder : String) (pos sumF : Nat),
        trainScan stats names (gi : Int) fuel (folderI : Int) (sum_ : Int) =
          some (folder, (pos : Int), (sumF : Int)) ∧
        folderI ≤ pos ∧ names.get? pos = some folder ∧
        cumLenBefore stats names pos ≤ sumF ∧ sumF ≤ gi ∧
        gi < sumF + lenOf stats folder := by
  intro fuel
  induction fuel with
  | zero =>
    intro folderI sum_ h1 h2 h3
    exfalso
    have hge : names.length ≤ folderI := by omega
    have := cumLenBefore_of_le stats names folderI hge
    rw [this] at h2
    omega
  | succ fuel ih =>
    intro folderI sum_ h1 h2 h3
    have hlt : folderI < names.length := by
      by_contra hge
      push_neg at hge
      have := cumLenBefore_of_le stats names folderI hge
      rw [this] at h2
      omega
    set folder := names.get ⟨folderI, hlt⟩ with hfolder
    have hget : names.get? folderI = some folder := List.get?_eq_get hlt
    have hpy : pyGet names ((folderI : Nat) : Int) = some folder := by
      rw [pyGet_natCast]; exact hget
    rcases Option.isSome_iff_exists.mp (hann folder (List.get_mem names folderI hlt)) with ⟨e, he⟩
    have hlen : lenOf stats folder = e.len := by simp [lenOf, he]
    rw [trainScan]
    simp only [hpy, he, Option.bind_eq_bind, Option.some_bind]
    by_cases hcond : sum_ + e.len ≤ gi
    · have hcond' : ((sum_ : Int) + (e.len : Int) ≤ (gi : Int)) := by exact_mod_cast hcond
      rw [if_pos hcond']
      have hcum : cumLenBefore stats names (folderI + 1) ≤ sum_ + e.len := by
        rw [cumLenBefore_succ stats names folderI hlt, ← hfolder, hlen]
        omega
      have hfuel : names.length + 1 ≤ fuel + (folderI + 1) := by omega
      rcases ih (folderI + 1) (sum_ + e.len) hcond hcum hfuel with
        ⟨folder', pos, sumF, hscan, hle, hget', hcum', hsum', hstop⟩
      refine ⟨folder', pos, sumF, ?_, by omega, hget', hcum', hsum', hstop⟩
      rw [← hscan]
      norm_cast
    · have hcond' : ¬ ((sum_ : Int) + (e.len : Int) ≤ (gi : Int)) := by exact_mod_cast hcond
      rw [if_neg hcond']
      exact ⟨folder, folderI, sum_, rfl, le_refl _, hget, h2, h1, by omega⟩

end ImageNet

namespace ImageNet

/-! Claim theorems. -/

/-- C1. The claim states that for every phase and valid `global_index`,
`resolve` returns a triple whose folder stands at some position `p` of
`FolderIndex` and whose image stands at some local index `l` of that
folder with `global_index = cumLenBefore p + l` and `l` below the folder
size. The code violates this in the train phase: on folder sizes
`[1, 1, 1300]` (total length 1302, every size ≤ 1300, sizes consistent
with the image lists), index 1300 resolves to folder `n1` image `b_0.x`,
yet no `(p, l)` decomposition of 1300 lands there — the valid
decomposition is folder `n2` (position 2, cumulative 2) with local index
1298. The loop's running offset starts at `1300 * (1300 / 1300) = 1300`,
which overstates the true cumulative count 2 of the skipped folders. -/
theorem c1_train_misresolves :
    1300 < totalLen exStats exNames ∧
    resolve .train exStats exNames 1300 = some ("n1", "b_0.x", 1) ∧
    decompChk exStats exNames 1300 "n1" "b_0.x" = false ∧
    cumLenBefore exStats exNames 2 = 2 ∧
    (∀ p ∈ exStats, p.2.len = p.2.images.length) :=
  ⟨by decide, by decide, by decide, by decide, by decide⟩

/-- C2. The claim states train-phase resolution is monotonic in folder
position. On folder sizes `[1, 1, 1300]`, index 2 resolves into the
folder at position 2 while the larger index 1300 resolves into the folder
at position 1: the position decreases, refuting monotonicity. -/
theorem c2_train_nonmonotonic :
    resolve .train exStats exNames 2 = some ("n2", "c_0.x", 2) ∧
    resolve .train exStats exNames 1300 = some ("n1", "b_0.x", 1) ∧
    exNames.indexOf "n2" = 2 ∧ exNames.indexOf "n1" = 1 ∧
    (∀ p ∈ exStats, p.2.len = p.2.images.length) :=
  ⟨by decide, by decide, by decide, by decide, by decide⟩

/-- C5. In the train phase, when every folder of `FolderIndex` is
annotated and no folder holds more than 1300 items, the refinement loop
started by `_calculate_image_folder_and_name` (first approximation
`global_index // 1300`, running offset `1300 * (global_index // 1300)`)
terminates with every subscript of `FolderIndex` in bounds — it returns a
result instead of raising or running out of fuel — and the final folder
position is at least the first approximation. -/
theorem c5_train_scan_safe (stats : List (String × FolderEntry))
    (names : List String) (gi : Nat)
    (hann : ∀ f ∈ names, (dlookup stats f).isSome)
    (hsz : ∀ f ∈ names, lenOf stats f ≤ 1300)
    (hgi : gi < totalLen stats names) :
    ∃ (folder : String) (pos sumF : Nat),
      trainScan stats names (gi : Int) (scanFuel names (gi : Int))
        ((gi : Int).ediv 1300) (1300 * (gi : Int).ediv 1300) =
        some (folder, (pos : Int), (sumF : Int)) ∧
      gi / 1300 ≤ pos ∧ names.get? pos = some folder := by
  have hediv : (gi : Int).ediv 1300 = ((gi / 1300 : Nat) : Int) := rfl
  have hmul : (1300 : Int) * ((gi / 1300 : Nat) : Int) =
      ((1300 * (gi / 1300) : Nat) : Int) := by push_cast; ring
  have hfuel : scanFuel names (gi : Int) = names.length + 2 := by
    rw [scanFuel, hediv]
    simp
    positivity
  have h1 : 1300 * (gi / 1300) ≤ gi := by
    have := Nat.div_mul_le_self gi 1300
    omega
  have h2 : cumLenBefore stats names (gi / 1300) ≤ 1300 * (gi / 1300) :=
    cumLenBefore_le stats names (gi / 1300) hsz
  have h3 : names.length + 1 ≤ (names.length + 2) + gi / 1300 := by omega
  rcases trainScan_sound stats names gi hann hgi (names.length + 2) (gi / 1300)
      (1300 * (gi / 1300)) h1 h2 h3 with
    ⟨folder, pos, sumF, hscan, hle, hget, _, _, _⟩
  refine ⟨folder, pos, sumF, ?_, hle, hget⟩
  rw [hfuel, hediv, hmul]
  exact hscan

/-- Closed instance of the C5 theorem on the one-folder train split. -/
theorem c5_train_scan_safe_witness :
    ∃ (folder : String) (pos sumF : Nat),
      trainScan smallStats smallNames ((1 : Nat) : Int)
        (scanFuel smallNames ((1 : Nat) : Int))
        (((1 : Nat) : Int).ediv 1300) (1300 * ((1 : Nat) : Int).ediv 1300) =
        some (folder, (pos : Int), (sumF : Int)) ∧
      1 / 1300 ≤ pos ∧ smallNames.get? pos = some folder :=
  c5_train_scan_safe smallStats smallNames 1 (by decide) (by decide) (by decide)

/-- C9. In the train phase, an annotation feed with no lines makes
construction fail while computing the length: with an empty stats dict the
length comprehension raises on the first folder name, and with no folder
names at all `reduce` raises on the empty list; either way `__init__`
propagates the exception and no dataset value is produced. -/
theorem c9_empty_feed_fails (dirs : List (String × List String)) :
    mkDataset .train dirs [] = none := by
  cases hn : pysorted folderKey (dirs.map (·.1)) with
  | none => simp [mkDataset, loadAll, hn]
  | some names =>
    have hload : loadAll dirs [] = some ⟨[], [], names⟩ := by
      simp [loadAll, hn, loadLoop]
    cases names with
    | nil => simp [mkDataset, hload, getLen, lenList]
    | cons f fs => simp [mkDataset, hload, getLen, lenList, dlookup]

/-- Closed instance of the C9 theorem on the two-folder listing. -/
theorem c9_empty_feed_fails_witness : mkDataset .train exDirs4 [] = none :=
  c9_empty_feed_fails exDirs4

end ImageNet

namespace ImageNet

/-- C8. In the val phase, a valid `global_index` resolves to the folder at
position `global_index / 50` of `FolderIndex`, the image at local index
`global_index % 50` of that folder's sorted list, and that folder's
numeric class id — under the spec's val invariants that every listed
folder is annotated with exactly 50 images and the folder count matches
the stats count. -/
theorem c8_val_resolution (stats : List (String × FolderEntry))
    (names : List String) (gi : Nat)
    (hann : ∀ f ∈ names, ∃ e, dlookup stats f = some e ∧ e.images.length = 50)
    (hcard : names.length = stats.length)
    (hgi : gi < 50 * stats.length) :
    ∃ (folder : String) (e : FolderEntry) (img : String),
      names.get? (gi / 50) = some folder ∧ dlookup stats folder = some e ∧
      e.images.get? (gi % 50) = some img ∧
      resolve .val stats names (gi : Nat) = some (folder, img, e.id) := by
  have hp : gi / 50 < names.length := by
    rw [hcard]
    exact Nat.div_lt_of_lt_mul hgi
  set folder := names.get ⟨gi / 50, hp⟩ with hfolder
  have hget : names.get? (gi / 50) = some folder := List.get?_eq_get hp
  rcases hann folder (List.get_mem names (gi / 50) hp) with ⟨e, he, h50⟩
  have hm : gi % 50 < e.images.length := by
    rw [h50]
    exact Nat.mod_lt _ (by omega)
  set img := e.images.get ⟨gi % 50, hm⟩ with himgd
  have himg : e.images.get? (gi % 50) = some img := List.get?_eq_get hm
  refine ⟨folder, e, img, hget, he, himg, ?_⟩
  have hediv : pyGet names ((gi : Int).ediv 50) = some folder := by
    have : (gi : Int).ediv 50 = ((gi / 50 : Nat) : Int) := rfl
    rw [this, pyGet_natCast]
    exact hget
  have hemod : pyGet e.images ((gi : Int).emod 50) = some img := by
    have : (gi : Int).emod 50 = ((gi % 50 : Nat) : Int) := rfl
    rw [this, pyGet_natCast]
    exact himg
  simp only [resolve, calcImageFolderAndName, hediv, he, hemod]

/-- Closed instance of the C8 theorem on the two-folder val split at
index 60. -/
theorem c8_val_resolution_witness :
    ∃ (folder : String) (e : FolderEntry) (img : String),
      valNames.get? (60 / 50) = some folder ∧ dlookup valStats folder = some e ∧
      e.images.get? (60 % 50) = some img ∧
      resolve .val valStats valNames ((60 : Nat) : Int) = some (folder, img, e.id) :=
  c8_val_resolution valStats valNames 60
    (by
      intro f hf
      simp only [valNames, List.mem_cons, List.not_mem_nil, or_false] at hf
      rcases hf with rfl | rfl
      · exact ⟨⟨0, 50, imgs50 "d"⟩, by decide, by decide⟩
      · exact ⟨⟨1, 50, imgs50 "e"⟩, by decide, by decide⟩)
    (by decide) (by decide)

end ImageNet

namespace ImageNet

/-- Appending feed lines runs the loop on the prefix first. -/
theorem loadLoop_append (dirs : List (String × List String))
    (xs ys : List (String × String × String)) :
    ∀ st, loadLoop dirs st (xs ++ ys) =
      match loadLoop dirs st xs with
      | none => none
      | some st' => loadLoop dirs st' ys := by
  induction xs with
  | nil => intro st; simp [loadLoop]
  | cons x xs ih =>
    intro st
    rw [List.cons_append, loadLoop, loadLoop]
    cases hs : annotStep dirs st x with
    | none => rfl
    | some st' => exact ih st'

/-- C3 counterexample. On a val split of two annotated folders with 50
images each (sizes consistent with the stored image lists),
`resolve(-1)` does not fail: Python's negative indexing wraps to the last
folder and returns its fiftieth image. -/
theorem c3_negative_index_returns_item :
    resolve .val valStats valNames (-1) = some ("n1", "e_49.x", 1) ∧
    (∀ p ∈ valStats, p.2.len = p.2.images.length) ∧
    valNames.length = valStats.length :=
  ⟨by decide, by decide, by decide⟩

/-- C3 as amended. The resolver performs no explicit range check. In the
val phase, with every listed folder annotated with 50 images and as many
folders as stats entries, `resolve(length)` fails (the folder subscript
runs off the end of `FolderIndex`), but `resolve(-1)` does not fail:
Python list semantics wrap the folder subscript `-1 // 50 = -1` to the
last folder and the local subscript `-1 % 50 = 49` to its fiftieth image,
returning that item. -/
theorem c3_range_check_behavior (stats : List (String × FolderEntry))
    (names : List String) (hne : names ≠ [])
    (hann : ∀ f ∈ names, ∃ e, dlookup stats f = some e ∧ e.images.length = 50)
    (hcard : names.length = stats.length) :
    resolve .val stats names ((50 * stats.length : Nat) : Int) = none ∧
    ∃ (folder : String) (e : FolderEntry) (img : String),
      names.getLast? = some folder ∧ dlookup stats folder = some e ∧
      e.images.get? 49 = some img ∧
      resolve .val stats names (-1) = some (folder, img, e.id) := by
  constructor
  · have hediv : ((50 * stats.length : Nat) : Int).ediv 50 =
        ((50 * stats.length / 50 : Nat) : Int) := rfl
    have hdiv : 50 * stats.length / 50 = stats.length :=
      Nat.mul_div_cancel_left stats.length (by omega)
    have hnone : pyGet names (((50 * stats.length : Nat) : Int).ediv 50) = none := by
      rw [hediv, pyGet_natCast, hdiv]
      exact List.get?_eq_none.mpr (le_of_eq hcard)
    simp only [resolve, calcImageFolderAndName, hnone]
  · have hlen0 : 0 < names.length := List.length_pos.mpr hne
    have hp : names.length - 1 < names.length := by omega
    set folder := names.get ⟨names.length - 1, hp⟩ with hfolderd
    have hgetlast : names.getLast? = some folder := by
      rw [List.getLast?_eq_get?]
      exact List.get?_eq_get hp
    rcases hann folder (List.get_mem names (names.length - 1) hp) with ⟨e, he, h50⟩
    have hm : (49 : Nat) < e.images.length := by omega
    set img := e.images.get ⟨49, hm⟩ with himgd
    have himg : e.images.get? 49 = some img := List.get?_eq_get hm
    refine ⟨folder, e, img, hgetlast, he, himg, ?_⟩
    have hpyneg : pyGet names ((-1 : Int).ediv 50) = some folder := by
      have hd : ((-1 : Int).ediv 50) = -1 := by decide
      rw [hd, pyGet]
      rw [if_pos (by norm_num)]
      have h1 : -(-1 : Int) ≤ (names.length : Int) := by
        have : (1 : Int) ≤ (names.length : Int) := by exact_mod_cast hlen0
        simpa using this
      rw [if_pos h1]
      have : ((-(-1 : Int)).toNat) = 1 := by decide
      rw [this]
      exact List.get?_eq_get hp
    have hpyimg : pyGet e.images ((-1 : Int).emod 50) = some img := by
      have hd : ((-1 : Int).emod 50) = ((49 : Nat) : Int) := by decide
      rw [hd, pyGet_natCast]
      exact himg
    simp only [resolve, calcImageFolderAndName, hpyneg, he, hpyimg]

/-- Closed instance of the amended C3 theorem on the two-folder val
split. -/
theorem c3_range_check_behavior_witness :
    resolve .val valStats valNames ((50 * valStats.length : Nat) : Int) = none ∧
    ∃ (folder : String) (e : FolderEntry) (img : String),
      valNames.getLast? = some folder ∧ dlookup valStats folder = some e ∧
      e.images.get? 49 = some img ∧
      resolve .val valStats valNames (-1) = some (folder, img, e.id) :=
  c3_range_check_behavior valStats valNames (by decide)
    (by
      intro f hf
      simp only [valNames, List.mem_cons, List.not_mem_nil, or_false] at hf
      rcases hf with rfl | rfl
      · exact ⟨⟨0, 50, imgs50 "d"⟩, by decide, by decide⟩
      · exact ⟨⟨1, 50, imgs50 "e"⟩, by decide, by decide⟩)
    (by decide)

end ImageNet

namespace ImageNet

/-- C4 counterexample. Constructed from a val directory listing two
folders of which only one is annotated, the dataset length is
`50 * len(folder_stats) = 50`, not `50 * |FolderIndex| = 100` as the
claim states. -/
theorem c4_val_length_counterexample :
    (mkDataset .val exDirs4 exAnn4).map (fun p => (p.2, p.1.names.length)) =
      some (50, 2) ∧ (50 : Nat) ≠ 50 * 2 :=
  ⟨by decide, by decide⟩

/-- C4 as amended. `length(val)` equals 50 times the number of
`FolderStats` entries (the annotated folders), which coincides with
`50 * |FolderIndex|` only when every listed folder is annotated;
`length(train)` equals the sum of `item_count` over `FolderIndex` order,
provided `FolderIndex` is nonempty and every listed folder is
annotated. -/
theorem c4_lengths :
    (∀ (stats : List (String × FolderEntry)) (names : List String),
       getLen .val stats names = some (50 * stats.length)) ∧
    (∀ (stats : List (String × FolderEntry)) (names : List String),
       names ≠ [] → (∀ f ∈ names, (dlookup stats f).isSome) →
       getLen .train stats names = some (totalLen stats names)) := by
  constructor
  · intro stats names
    rfl
  · intro stats names hne hann
    cases names with
    | nil => exact absurd rfl hne
    | cons n ns =>
      have hall := lenList_eq stats (n :: ns) hann
      rw [List.map_cons] at hall
      simp only [getLen, hall]
      rw [totalLen, List.map_cons]

/-- Closed instance of the amended C4 theorem. -/
theorem c4_lengths_witness :
    getLen .val exStats exNames = some (50 * exStats.length) ∧
    getLen .train valStats valNames = some (totalLen valStats valNames) :=
  ⟨c4_lengths.1 exStats exNames,
   c4_lengths.2 valStats valNames (by decide) (by decide)⟩

/-- C6 counterexample. In the val phase, a folder (`n2`) present in the
directory listing but absent from the annotation feed does not make
construction fail: the dataset is built (with length 50) and the folder is
silently ignored by the length computation. -/
theorem c6_val_unannotated_no_failure :
    (mkDataset .val exDirs4 exAnn4).isSome = true ∧
    exDirs4.map (·.1) = ["n1", "n2"] ∧ (∀ a ∈ exAnn4, a.1 ≠ "n2") :=
  ⟨by decide, by decide, by decide⟩

/-- C6 as amended. A folder named in the annotation feed but absent from
the directory listing is fatal to construction in both phases (the
listing of that folder raises). A listed folder absent from the feed is
fatal in the train phase only (the length comprehension hits a missing
stats key); in the val phase construction succeeds, as the counterexample
shows. -/
theorem c6_missing_folder_failures :
    (∀ (phase : Phase) (dirs : List (String × List String))
       (annots : List (String × String × String))
       (line : String × String × String),
       line ∈ annots → dlookup dirs line.1 = none →
       mkDataset phase dirs annots = none) ∧
    (∀ (dirs : List (String × List String))
       (annots : List (String × String × String)) (f : String),
       f ∈ dirs.map (·.1) → (∀ a ∈ annots, a.1 ≠ f) →
       mkDataset .train dirs annots = none) := by
  constructor
  · intro phase dirs annots line hmem hdir
    have hloop : ∀ st, loadLoop dirs st annots = none :=
      fun st => loadLoop_none_of_mem dirs line
        (fun st' => annotStep_none_of_nodir dirs st' line hdir) annots st hmem
    cases hn : pysorted folderKey (dirs.map (·.1)) with
    | none => simp [mkDataset, loadAll, hn]
    | some names => simp [mkDataset, loadAll, hn, hloop]
  · intro dirs annots f hf hnot
    cases hl : loadAll dirs annots with
    | none => simp [mkDataset, hl]
    | some r =>
      rcases loadAll_eq_some dirs annots r hl with ⟨hsort, hloop⟩
      rcases pysorted_eq_some _ _ _ hsort with ⟨_, hnames⟩
      have hfmem : f ∈ r.names := by
        rw [hnames]
        simpa using hf
      have hstats : dlookup r.stats f = none :=
        loadLoop_stats_none dirs annots ([], []) (r.labels, r.stats) hloop f hnot rfl
      have hlen : lenList r.stats r.names = none :=
        lenList_none r.stats r.names f hfmem hstats
      simp [mkDataset, hl, getLen, hlen]

/-- Closed instance of the amended C6 theorem. -/
theorem c6_missing_folder_failures_witness :
    mkDataset .val exDirs4 [("zz", "0", "x")] = none ∧
    mkDataset .train exDirs4 exAnn4 = none :=
  ⟨c6_missing_folder_failures.1 .val exDirs4 [("zz", "0", "x")] ("zz", "0", "x")
     (by decide) (by decide),
   c6_missing_folder_failures.2 exDirs4 exAnn4 "n2" (by decide) (by decide)⟩

end ImageNet

namespace ImageNet

/-- C7. After construction, every `FolderStats` entry holds a permutation
of its folder's directory listing ordered by the numeric component of the
image filename (the integer between the first two separators, where every
dot counts as a separator), with its size the listing's length and with
every listed name carrying a parsable numeric component; and construction
fails whenever some annotated folder's listing holds a name with no
numeric token in that position. -/
theorem c7_images_sorted_or_fail :
    (∀ (dirs : List (String × List String))
       (annots : List (String × String × String)) (r : LoadResult)
       (f : String) (e : FolderEntry),
       loadAll dirs annots = some r → dlookup r.stats f = some e →
       ∃ listing, dlookup dirs f = some listing ∧ e.images.Perm listing ∧
         e.images.Sorted (keyRel imageKey) ∧ e.len = listing.length ∧
         ∀ img ∈ listing, (imageKey img).isSome) ∧
    (∀ (dirs : List (String × List String))
       (annots : List (String × String × String))
       (line : String × String × String) (listing : List String) (img : String),
       line ∈ annots → dlookup dirs line.1 = some listing → img ∈ listing →
       imageKey img = none → loadAll dirs annots = none) := by
  constructor
  · intro dirs annots r f e hload he
    rcases loadAll_eq_some dirs annots r hload with ⟨_, hloop⟩
    rcases loadLoop_stats_lookup dirs annots ([], []) (r.labels, r.stats) hloop f e he
      with hL | hR
    · rcases hL with ⟨idTok, lbl, listing, _, _, hdir, hlen, hsorted⟩
      rcases pysorted_eq_some _ _ _ hsorted with ⟨hkeys, himgs⟩
      refine ⟨listing, hdir, ?_, ?_, hlen, hkeys⟩
      · rw [himgs]
        exact List.perm_insertionSort _ _
      · rw [himgs]
        exact List.sorted_insertionSort _ _
    · simp [dlookup] at hR
  · intro dirs annots line listing img hmem hdir himg hkey
    have hloop : ∀ st, loadLoop dirs st annots = none :=
      fun st => loadLoop_none_of_mem dirs line
        (fun st' => annotStep_none_of_badimage dirs st' line listing img hdir himg hkey)
        annots st hmem
    cases hn : pysorted folderKey (dirs.map (·.1)) with
    | none => simp [loadAll, hn]
    | some names => simp [loadAll, hn, hloop]

/-- Closed instance of the C7 theorem: the sortedness part on the
two-folder listing and the failure part on the listing with an unparsable
image name. -/
theorem c7_images_sorted_or_fail_witness :
    (∃ listing, dlookup exDirs4 "n1" = some listing ∧
       List.Perm (["a_1.x"] : List String) listing ∧
       List.Sorted (keyRel imageKey) (["a_1.x"] : List String) ∧
       (1 : Nat) = listing.length ∧
       ∀ img ∈ listing, (imageKey img).isSome) ∧
    loadAll badDirs badAnn = none :=
  ⟨c7_images_sorted_or_fail.1 exDirs4 exAnn4
     ⟨[("0", "fish")], [("n1", ⟨0, 1, ["a_1.x"]⟩)], ["n1", "n2"]⟩
     "n1" ⟨0, 1, ["a_1.x"]⟩ (by decide) (by decide),
   c7_images_sorted_or_fail.2 badDirs badAnn ("n1", "0", "fish") ["bad"] "bad"
     (by decide) (by decide) (by decide) (by decide)⟩

/-- C10. A later annotation line re-using the folder of an earlier one
does not make construction fail: the loop has already listed and sorted
that folder successfully, so the duplicate line simply overwrites the
stats entry (keeping the listing-derived size and sorted images but
installing the new class id) and overwrites the label binding of its
class-id token; the resulting dicts reflect the last occurrence of each
key. -/
theorem c10_duplicate_line_overwrites (dirs : List (String × List String))
    (annots : List (String × String × String)) (f idTok lbl : String)
    (r₀ : LoadResult) (e₀ : FolderEntry) (idv : Int)
    (h0 : loadAll dirs annots = some r₀)
    (he : dlookup r₀.stats f = some e₀)
    (hid : pyInt idTok = some idv) :
    ∃ r : LoadResult, loadAll dirs (annots ++ [(f, idTok, lbl)]) = some r ∧
      dlookup r.stats f = some ⟨idv, e₀.len, e₀.images⟩ ∧
      dlookup r.labels idTok = some lbl := by
  rcases loadAll_eq_some dirs annots r₀ h0 with ⟨hsort, hloop⟩
  rcases loadLoop_stats_lookup dirs annots ([], []) (r₀.labels, r₀.stats) hloop f e₀ he
    with hL | hR
  swap
  · simp [dlookup] at hR
  rcases hL with ⟨idTok₀, lbl₀, listing, _, _, hdir, hlen, hsorted⟩
  have hstep : annotStep dirs (r₀.labels, r₀.stats) (f, idTok, lbl) =
      some (dinsert r₀.labels idTok lbl,
            dinsert r₀.stats f ⟨idv, listing.length, e₀.images⟩) := by
    simp [annotStep, hid, hdir, hsorted]
  have hloop2 : loadLoop dirs ([], []) (annots ++ [(f, idTok, lbl)]) =
      some (dinsert r₀.labels idTok lbl,
            dinsert r₀.stats f ⟨idv, listing.length, e₀.images⟩) := by
    rw [loadLoop_append dirs annots [(f, idTok, lbl)] ([], []), hloop]
    simp only [loadLoop]
    rw [hstep]
  refine ⟨⟨dinsert r₀.labels idTok lbl,
           dinsert r₀.stats f ⟨idv, listing.length, e₀.images⟩, r₀.names⟩, ?_, ?_, ?_⟩
  · simp [loadAll, hsort, hloop2]
  · rw [← hlen]
    exact dlookup_dinsert_self _ _ _
  · exact dlookup_dinsert_self _ _ _

/-- Closed instance of the C10 theorem: the feed lists folder `n1` twice;
construction succeeds and the second line's class id and label win. -/
theorem c10_duplicate_line_overwrites_witness :
    ∃ r : LoadResult, loadAll exDirs4 (exAnn4 ++ [("n1", "7", "new")]) = some r ∧
      dlookup r.stats "n1" = some ⟨7, 1, ["a_1.x"]⟩ ∧
      dlookup r.labels "7" = some "new" :=
  c10_duplicate_line_overwrites exDirs4 exAnn4 "n1" "7" "new"
    ⟨[("0", "fish")], [("n1", ⟨0, 1, ["a_1.x"]⟩)], ["n1", "n2"]⟩
    ⟨0, 1, ["a_1.x"]⟩ 7 (by decide) (by decide) (by decide)

end ImageNet
